import Mathlib

/-
Verification of rs-local-proxy (src/server.js).

The program is a JavaScript HTTP relay; its pure request-processing core is
embedded shallowly in Lean.  JavaScript strings are modelled as `List Char`;
a JavaScript value that may be `undefined`/`null` is an
`Option (List Char)`, whose JS truthiness is `jsTruthy` (absence and the
empty string are falsy).  Each definition is translated from the function
of the same name in src/server.js; the few observer definitions with no
counterpart in the source (the CDATA section reader, the spec's credential
contract) are marked as modelled from the spec.
-/

/- #### JS primitives -/

/-- JS truthiness of an optional string value: `undefined`/`null` and the
empty string are falsy, every other string is truthy. -/
def jsTruthy : Option (List Char) → Bool
  | none => false
  | some [] => false
  | some (_ :: _) => true

/-- JS `a || b` on optional string values: `b` when `a` is falsy, else `a`. -/
def orFalsy (a b : Option (List Char)) : Option (List Char) :=
  if jsTruthy a then a else b

/-- JS `a ?? b` with a string default: only `undefined`/`null` falls
through to the default. -/
def nullishGetD (a : Option (List Char)) (b : List Char) : List Char :=
  match a with
  | none => b
  | some s => s

/-- The ASCII part of the JS `\s` class (and of `String.prototype.trim`):
space, tab, line feed, carriage return, vertical tab, form feed. -/
def jsSpace (c : Char) : Bool :=
  c = ' ' || c = '\t' || c = '\n' || c = '\r' || c = '\x0b' || c = '\x0c'

/-- JS `String.prototype.trim`: drop whitespace from both ends. -/
def jsTrim (s : List Char) : List Char :=
  ((s.dropWhile jsSpace).reverse.dropWhile jsSpace).reverse

/- #### cdataWrap (src/server.js lines 33-38) -/

/-- The characters of `"<![CDATA["`. -/
def cdataOpen : List Char := ['<', '!', '[', 'C', 'D', 'A', 'T', 'A', '[']

/-- The characters of `"]]>"`. -/
def cdataClose : List Char := [']', ']', '>']

/-- The characters of `"]]]]><![CDATA[>"`, the replacement text of
`s.replaceAll(']]>', ']]]]><![CDATA[>')` in `cdataWrap`. -/
def cdataReplacement : List Char :=
  [']', ']', ']', ']', '>', '<', '!', '[', 'C', 'D', 'A', 'T', 'A', '[', '>']

/-- `s.replaceAll(']]>', ']]]]><![CDATA[>')` (src/server.js line 36):
left-to-right, non-overlapping replacement of every occurrence. -/
def escapeCdata : List Char → List Char
  | ']' :: ']' :: '>' :: rest => cdataReplacement ++ escapeCdata rest
  | c :: rest => c :: escapeCdata rest
  | [] => []

/-- `cdataWrap` (src/server.js lines 33-38): escape the value and enclose
it in `<![CDATA[` ... `]]>`. -/
def cdataWrap (value : List Char) : List Char :=
  cdataOpen ++ escapeCdata value ++ cdataClose

/-- Modelled from the spec: an XML reader for a sequence of adjacent CDATA
sections.  Each section starts with `<![CDATA[` and runs to the first
`]]>`; the reader concatenates the character data of the sections.  (The
fuel argument only bounds recursion; `cdataParse` supplies enough.)  The
source repository contains no CDATA parser: this is the spec's observer
for the round-trip property of claim C1. -/
def cdataReadSections : Nat → List Char → Option (List Char)
  | 0, _ => none
  | _ + 1, [] => none
  | fuel + 1, c :: cs =>
    if (c :: cs).take 3 = cdataClose then
      match (c :: cs).drop 3 with
      | [] => some []
      | r :: rs =>
        if (r :: rs).take 9 = cdataOpen then cdataReadSections fuel ((r :: rs).drop 9)
        else none
    else (cdataReadSections fuel cs).map (fun t => c :: t)

/-- Modelled from the spec: parse a complete CDATA-section sequence,
returning the concatenated character data. -/
def cdataParse (s : List Char) : Option (List Char) :=
  if s.take 9 = cdataOpen then cdataReadSections s.length (s.drop 9) else none

/- #### extractTagText and extractRequestKey (src/server.js lines 40-60)

The two functions are regex scans; the regexes are embedded as executable
first-match scanners with the same semantics: the leftmost position at
which the whole anchored pattern matches wins, greedy character classes
followed by a mandatory terminator stop at the first terminator, and the
lazy group stops at the nearest close tag. -/

/-- Case-insensitive character comparison (the regex `i` flag, ASCII). -/
def ciChar (a b : Char) : Bool := a.toLower == b.toLower

/-- Does `text` start with `pat`, case-insensitively? -/
def ciStartsWith : List Char → List Char → Bool
  | [], _ => true
  | _ :: _, [] => false
  | p :: ps, c :: cs => ciChar p c && ciStartsWith ps cs

/-- Consume `[^>]*>`: drop characters up to and including the first `>`. -/
def dropThroughGt : List Char → Option (List Char)
  | [] => none
  | '>' :: rest => some rest
  | _ :: rest => dropThroughGt rest

/-- The lazy group `([\s\S]*?)` before the first case-insensitive
occurrence of `closePat`: the minimal text before that occurrence, or
`none` when it never occurs. -/
def lazyUntilCi (closePat : List Char) : List Char → Option (List Char)
  | [] => none
  | c :: cs =>
    if ciStartsWith closePat (c :: cs) then some []
    else (lazyUntilCi closePat cs).map fun t => c :: t

/-- One anchored attempt of `<tagName[^>]*>([\s\S]*?)</tagName>` (flag `i`)
at the start of `s`. -/
def matchTagAt (tag : List Char) (s : List Char) : Option (List Char) :=
  if ciStartsWith ('<' :: tag) s then
    match dropThroughGt (s.drop (tag.length + 1)) with
    | none => none
    | some afterOpen => lazyUntilCi ('<' :: '/' :: (tag ++ ['>'])) afterOpen
  else none

/-- Leftmost-position scan of an anchored matcher (regex first match). -/
def scanFirst (p : List Char → Option (List Char)) : List Char → Option (List Char)
  | [] => none
  | c :: cs =>
    match p (c :: cs) with
    | some v => some v
    | none => scanFirst p cs

/-- extractTagText (src/server.js lines 40-45). -/
def extractTagText (xml : List Char) (tagName : List Char) : Option (List Char) :=
  if xml.isEmpty then none else scanFirst (matchTagAt tagName) xml

/-- Anchored attempt of `/<RequestKey>([^<]+)<\/RequestKey>/i`
(src/server.js line 51). -/
def reqKeyElemAt (s : List Char) : Option (List Char) :=
  if ciStartsWith "<RequestKey>".data s then
    let rest := s.drop 12
    let inner := rest.takeWhile fun c => c ≠ '<'
    if inner.isEmpty then none
    else if ciStartsWith "</RequestKey>".data (rest.drop inner.length) then some inner
    else none
  else none

/-- Anchored attempt of `/RequestKey\s*=\s*"([^"]+)"/i`
(src/server.js line 52). -/
def reqKeyAttrAt (s : List Char) : Option (List Char) :=
  if ciStartsWith "RequestKey".data s then
    match (s.drop 10).dropWhile jsSpace with
    | '=' :: r2 =>
      match r2.dropWhile jsSpace with
      | '"' :: r3 =>
        let inner := r3.takeWhile fun c => c ≠ '"'
        if inner.isEmpty then none
        else
          match r3.drop inner.length with
          | '"' :: _ => some inner
          | _ => none
      | _ => none
    | _ => none
  else none

/-- The character class `[A-Za-z0-9_-]`. -/
def keyTokenChar (c : Char) : Bool := c.isAlpha || c.isDigit || c = '_' || c = '-'

/-- Anchored attempt of `/RequestKey\s*:\s*([A-Za-z0-9_-]+)/i`
(src/server.js line 53). -/
def reqKeyColonAt (s : List Char) : Option (List Char) :=
  if ciStartsWith "RequestKey".data s then
    match (s.drop 10).dropWhile jsSpace with
    | ':' :: r2 =>
      let inner := (r2.dropWhile jsSpace).takeWhile keyTokenChar
      if inner.isEmpty then none else some inner
    | _ => none
  else none

/-- extractRequestKey (src/server.js lines 47-60): try the three patterns
in order; on the first match return the captured group, trimmed. -/
def extractRequestKey (text : List Char) : Option (List Char) :=
  if text.isEmpty then none
  else
    match scanFirst reqKeyElemAt text with
    | some v => some (jsTrim v)
    | none =>
      match scanFirst reqKeyAttrAt text with
      | some v => some (jsTrim v)
      | none =>
        match scanFirst reqKeyColonAt text with
        | some v => some (jsTrim v)
        | none => none

/- #### formatSmsPortalNumber (src/server.js lines 223-232) -/

/-- formatSmsPortalNumber: strip non-digits, then normalize to a
`27`-prefixed number following the source's branch order. -/
def formatSmsPortalNumber (phone : Option (List Char)) : List Char :=
  match phone with
  | none => []
  | some s =>
    let cleaned := s.filter fun c => c.isDigit
    if cleaned = [] then []
    else if ['2', '7'].isPrefixOf cleaned then cleaned
    else if ['0'].isPrefixOf cleaned then ['2', '7'] ++ cleaned.drop 1
    else if cleaned.length = 9 then ['2', '7'] ++ cleaned
    else cleaned

/- #### The /api/mie handler (src/server.js lines 80-214) -/

/-- The `payload` object the `/api/mie` handler reads
(src/server.js lines 117-159). -/
structure MiePayload where
  checkTypes : Option (List (List Char))
  remoteKey : Option (List Char)
  firstName : Option (List Char)
  lastName : Option (List Char)
  idNumber : Option (List Char)
  dateOfBirth : Option (List Char)
  phone : Option (List Char)
  email : Option (List Char)
  source : Option (List Char)
  indemnityAcknowledged : Bool

/-- The request body destructured by the `/api/mie` handler
(src/server.js lines 82-93).  `checkTypes := none` models a value that is
not an array. -/
structure MieRequestBody where
  method : Option (List Char)
  soapUrl : Option (List Char)
  username : Option (List Char)
  password : Option (List Char)
  clientKey : Option (List Char)
  agentKey : Option (List Char)
  source : Option (List Char)
  payload : MiePayload
  aLogonXml : Option (List Char)
  aArgument : Option (List Char)

/-- The two MIE-related environment variables of the process
(src/server.js lines 72-73 and 99). -/
structure MieEnv where
  MIE_PASSWORD : Option (List Char)
  MIE_USERNAME : Option (List Char)

/-- The secrets.local.json keys consulted for MIE (src/server.js line 99);
the whole file may be absent (`Option MieSecrets`). -/
structure MieSecrets where
  MIE_PASSWORD : Option (List Char)
  mie_password : Option (List Char)

/-- `passwordFromBody || process.env.MIE_PASSWORD || secrets?.MIE_PASSWORD
|| secrets?.mie_password || null` (src/server.js line 99). -/
def resolveMiePassword (body : MieRequestBody) (env : MieEnv)
    (secrets : Option MieSecrets) : Option (List Char) :=
  orFalsy body.password (orFalsy env.MIE_PASSWORD
    (orFalsy (secrets.bind fun s => s.MIE_PASSWORD)
      (orFalsy (secrets.bind fun s => s.mie_password) none)))

/-- aLogonXml (src/server.js lines 109-114): a caller override, or the
fixed token template.  Note the username comes from the request body only
(`username ?? ''`). -/
def mieLogonXml (body : MieRequestBody) (password : List Char) : List Char :=
  if jsTruthy body.aLogonXml then nullishGetD body.aLogonXml []
  else
    "<xml><Token><UserName>".data ++ nullishGetD body.username []
      ++ "</UserName><Password>".data ++ password
      ++ "</Password><Source>".data ++ nullishGetD body.source []
      ++ "</Source></Token></xml>".data

/-- One `<Item>` block of the request fragment (src/server.js
lines 150-157). -/
def mieItemXml (indemnity : Bool) (t : List Char) : List Char :=
  "<Item><RemoteItemKey></RemoteItemKey><ItemTypeCode>".data ++ t.map Char.toUpper
    ++ "</ItemTypeCode><Indemnity>".data
    ++ (if indemnity then "true".data else "false".data)
    ++ "</Indemnity><ItemInputGroupList></ItemInputGroupList></Item>".data

/-- aArgument (src/server.js lines 117-159): a caller override, or the
fixed request template.  `nowMs` stands for `Date.now()` and `nowIso` for
`new Date().toISOString()`, passed in as parameters of the embedding. -/
def mieArgumentXml (body : MieRequestBody) (nowMs nowIso : List Char) : List Char :=
  if jsTruthy body.aArgument then nullishGetD body.aArgument []
  else
    let checkTypes := match body.payload.checkTypes with
      | none => []
      | some l => l
    let remoteKey := if jsTruthy body.payload.remoteKey then
        nullishGetD body.payload.remoteKey []
      else "RS_".data ++ nowMs
    let ck := nullishGetD body.clientKey []
    "<xml><Request><ClientKey>".data ++ ck
      ++ "</ClientKey><AgentClient>".data ++ ck
      ++ "</AgentClient><AgentKey>".data ++ nullishGetD body.agentKey []
      ++ "</AgentKey><RemoteRequest>".data ++ remoteKey
      ++ ("</RemoteRequest><OrderNumber></OrderNumber><RequestReason>"
          ++ "</RequestReason><Note></Note><FirstNames>").data
      ++ nullishGetD body.payload.firstName []
      ++ "</FirstNames><Surname>".data ++ nullishGetD body.payload.lastName []
      ++ "</Surname><MaidenName></MaidenName><IdNumber>".data
      ++ nullishGetD body.payload.idNumber []
      ++ "</IdNumber><Passport></Passport>".data
      ++ (if jsTruthy body.payload.dateOfBirth then
            "<DateOfBirth>".data ++ nullishGetD body.payload.dateOfBirth []
              ++ "</DateOfBirth>".data
          else "<DateOfBirth></DateOfBirth>".data)
      ++ "<ContactNumber>".data ++ nullishGetD body.payload.phone []
      ++ "</ContactNumber><PersonEmail>".data ++ nullishGetD body.payload.email []
      ++ "</PersonEmail><AlternateEmail></AlternateEmail><Source>".data
      ++ (match body.payload.source with
          | some s => s
          | none => nullishGetD body.source [])
      ++ "</Source><EntityKind>P</EntityKind><RemoteCaptureDate>".data ++ nowIso
      ++ "</RemoteCaptureDate><RemoteSendDate>".data ++ nowIso
      ++ ("</RemoteSendDate><RemoteGroup></RemoteGroup><PrerequisiteGroupList>"
          ++ "</PrerequisiteGroupList><PrerequisiteImageList>"
          ++ "</PrerequisiteImageList><ItemList>").data
      ++ (checkTypes.map (mieItemXml body.payload.indemnityAcknowledged)).flatten
      ++ "</ItemList></Request></xml>".data

/-- hasArgument (src/server.js line 161): the three-name allow-list,
matched against the lower-cased method name. -/
def hasArgument (method : List Char) : Bool :=
  ["ksoputrequest".data, "ksoputbranch".data,
    "ksoputrequestredirect".data].contains (method.map Char.toLower)

/-- The envelope text up to and including the `<` that opens the
method-named element (src/server.js lines 163-166). -/
def soapHeaderPre : List Char :=
  ("<?xml version=\"1.0\" encoding=\"utf-8\"?>\n<soap:Envelope xmlns:xsi=\"http://www.w3.org/2001/XMLSchema-instance\" xmlns:xsd=\"http://www.w3.org/2001/XMLSchema\" xmlns:soap=\"http://schemas.xmlsoap.org/soap/envelope/\"><soap:Body><").data

/-- The text between the method name and the logon CDATA section
(src/server.js lines 166-167). -/
def soapAfterMethod : List Char := (" xmlns=\"http://www.kroll.co.za/\"><aLogonXml>").data

/-- `</aLogonXml>` (src/server.js line 167). -/
def soapLogonClose : List Char := "</aLogonXml>".data

/-- The `</` opening the method-named closing tag (src/server.js line 169). -/
def soapCloseSlash : List Char := "</".data

/-- The `>` of the closing tag and the envelope tail (src/server.js
lines 169-171). -/
def soapTail : List Char := "></soap:Body></soap:Envelope>".data

/-- soapEnvelope (src/server.js lines 163-171). -/
def soapEnvelope (method aLogonXml aArgument : List Char) : List Char :=
  soapHeaderPre ++ method ++ soapAfterMethod ++ cdataWrap aLogonXml ++ soapLogonClose
    ++ (if hasArgument method then
          "<aArgument>".data ++ cdataWrap aArgument ++ "</aArgument>".data
        else [])
    ++ soapCloseSlash ++ method ++ soapTail

/-- `soapAction` (src/server.js line 173). -/
def soapActionFor (method : List Char) : List Char :=
  "http://www.kroll.co.za/".data ++ method

/-- The hint sent with the 400 for a missing password
(src/server.js line 104). -/
def mieMissingPasswordHint : List Char :=
  ("Set MIE_PASSWORD as an environment variable OR add secrets.local.json with \x7b \"MIE_PASSWORD\": \"...\" \x7d").data

/-- What the `/api/mie` handler does before any outbound call
(src/server.js lines 95-183): an early 400 response, or the outbound
request it is about to send. -/
inductive MieStep where
  | early (status : Nat) (ok : Bool) (error : List Char) (hint : Option (List Char))
  | send (soapUrl : List Char) (soapAction : List Char) (envelope : List Char)
deriving DecidableEq

/-- The validation and envelope-construction phase of the `/api/mie`
handler (src/server.js lines 95-183), up to the single outbound `fetch`. -/
def mieBuild (body : MieRequestBody) (env : MieEnv) (secrets : Option MieSecrets)
    (nowMs nowIso : List Char) : MieStep :=
  if jsTruthy body.method = false then .early 400 false "Missing method".data none
  else if jsTruthy body.soapUrl = false then .early 400 false "Missing soapUrl".data none
  else
    match resolveMiePassword body env secrets with
    | none => .early 400 false "Missing MIE password".data (some mieMissingPasswordHint)
    | some password =>
      let method := nullishGetD body.method []
      .send (nullishGetD body.soapUrl []) (soapActionFor method)
        (soapEnvelope method (mieLogonXml body password)
          (mieArgumentXml body nowMs nowIso))

/-- `requestKey || null` and `resultText || null`
(src/server.js lines 205-207). -/
def orNull (x : Option (List Char)) : Option (List Char) :=
  if jsTruthy x then x else none

/-- The handler's response once the vendor call has returned
(src/server.js lines 187-209). -/
inductive MieHttpOutcome where
  | failure (status : Nat) (error soapAction soapUrl responseSnippet : List Char)
  | success (method soapAction : List Char)
      (requestKey reference result : Option (List Char)) (rawSoapResponse : List Char)
deriving DecidableEq

/-- src/server.js lines 185-209: `resp.ok` is HTTP status 200-299; on a
non-2xx status respond 502 with a 2000-character snippet of the raw body,
on success extract the `<method>Result` tag text and a request key from
it. -/
def mieRespond (method soapAction soapUrl : List Char) (status : Nat)
    (respText : List Char) : Nat × MieHttpOutcome :=
  if 200 ≤ status ∧ status ≤ 299 then
    let resultText := extractTagText respText (method ++ "Result".data)
    let requestKey := match resultText with
      | none => none
      | some t => extractRequestKey t
    (200, .success method soapAction (orNull requestKey) (orNull requestKey)
      (orNull resultText) respText)
  else
    (502, .failure status ("MIE SOAP HTTP ".data ++ (Nat.repr status).data)
      soapAction soapUrl (respText.take 2000))

/-- Modelled from the spec: the credential resolver contract, "return the
first non-empty of" an ordered list of candidate values. -/
def specFirstTruthy (xs : List (Option (List Char))) : Option (List Char) :=
  match xs.find? jsTruthy with
  | some v => v
  | none => none

/- #### The /api/sms/send handler (src/server.js lines 294-342) -/

/-- An element of the `recipients` array (src/server.js line 305): a raw
string, a phone-bearing object, or a non-object falsy entry. -/
inductive SmsRecipient where
  | strRec (s : List Char)
  | objRec (cellphone_number phone contact_number mobile : Option (List Char))
  | nullRec
deriving DecidableEq

/-- `(r && typeof r === 'object') ? (r.cellphone_number || r.phone ||
r.contact_number || r.mobile) : r` (src/server.js line 305). -/
def recipientRaw : SmsRecipient → Option (List Char)
  | .strRec s => some s
  | .objRec c p cn m => orFalsy c (orFalsy p (orFalsy cn m))
  | .nullRec => none

/-- The `options` object of `/api/sms/send` (src/server.js line 296). -/
structure SmsOptions where
  scheduledFor : Option (List Char)
  reference : Option (List Char)
  senderId : Option (List Char)
  testMode : Bool
deriving DecidableEq

/-- One outbound message record (src/server.js lines 307-312). -/
structure SmsMessage where
  content : List Char
  destination : List Char
  sendTime : Option (List Char)
  reference : Option (List Char)
deriving DecidableEq

/-- The bulk-send payload (src/server.js lines 320-324). -/
structure SmsPayload where
  messages : List SmsMessage
  testMode : Bool
  senderId : Option (List Char)
deriving DecidableEq

/-- What the `/api/sms/send` handler does before (or instead of)
forwarding to the vendor. -/
inductive SmsSendStep where
  | badRequest (status : Nat) (success : Bool) (error : List Char)
  | forward (path : List Char) (payload : SmsPayload)
deriving DecidableEq

/-- One outbound message built from a recipient
(src/server.js lines 304-312). -/
def smsMessageOf (message : List Char) (options : SmsOptions) (r : SmsRecipient) :
    SmsMessage :=
  { content := jsTrim message,
    destination := formatSmsPortalNumber (recipientRaw r),
    sendTime := if jsTruthy options.scheduledFor then options.scheduledFor else none,
    reference := if jsTruthy options.reference then options.reference else none }

/-- The `/api/sms/send` handler up to the point where it forwards to the
vendor bulk endpoint (src/server.js lines 294-336). -/
def smsSend (message : Option (List Char)) (recipients : Option (List SmsRecipient))
    (options : SmsOptions) : SmsSendStep :=
  match message with
  | none => .badRequest 400 false "Message cannot be empty".data
  | some s =>
    if (jsTrim s).isEmpty then .badRequest 400 false "Message cannot be empty".data
    else
      match recipients with
      | none => .badRequest 400 false "No recipients specified".data
      | some [] => .badRequest 400 false "No recipients specified".data
      | some rs =>
        let msgs := (rs.map (smsMessageOf s options)).filter
          fun mg => !mg.destination.isEmpty
        if msgs.isEmpty then
          .badRequest 400 false "No valid recipient numbers found".data
        else
          .forward "/BulkMessages".data
            { messages := msgs, testMode := options.testMode,
              senderId := if jsTruthy options.senderId then options.senderId else none }

/- #### Concrete fixtures used by witnesses and the counterexample -/

/-- A payload with every optional field absent. -/
def emptyMiePayload : MiePayload :=
  { checkTypes := none, remoteKey := none, firstName := none, lastName := none,
    idNumber := none, dateOfBirth := none, phone := none, email := none,
    source := none, indemnityAcknowledged := false }

/-- An environment with neither MIE variable set. -/
def mieEnvNone : MieEnv := { MIE_PASSWORD := none, MIE_USERNAME := none }

/-- A request that supplies no username (the password comes in the body). -/
def c4Body : MieRequestBody :=
  { method := some "KsoLogon".data, soapUrl := some "http://vendor".data,
    username := none, password := some "pw".data, clientKey := none,
    agentKey := none, source := none, payload := emptyMiePayload,
    aLogonXml := none, aArgument := none }

/-- An environment that sets MIE_USERNAME. -/
def c4Env : MieEnv := { MIE_PASSWORD := none, MIE_USERNAME := some "alice".data }

def c7BodyNoMethod : MieRequestBody :=
  { method := none, soapUrl := some "http://u".data, username := none,
    password := none, clientKey := none, agentKey := none, source := none,
    payload := emptyMiePayload, aLogonXml := none, aArgument := none }

def c7BodyNoUrl : MieRequestBody :=
  { method := some "KsoLogon".data, soapUrl := none, username := none,
    password := none, clientKey := none, agentKey := none, source := none,
    payload := emptyMiePayload, aLogonXml := none, aArgument := none }

def c7BodyNoPassword : MieRequestBody :=
  { method := some "KsoLogon".data, soapUrl := some "http://u".data,
    username := none, password := none, clientKey := none, agentKey := none,
    source := none, payload := emptyMiePayload, aLogonXml := none,
    aArgument := none }

/-- A request with a full identity payload (non-allow-listed method). -/
def c10Body1 : MieRequestBody :=
  { method := some "KsoLogon".data, soapUrl := some "http://u".data,
    username := some "usr".data, password := some "pw".data,
    clientKey := some "CK1".data, agentKey := none, source := some "web".data,
    payload :=
      { checkTypes := some ["cv".data], remoteKey := some "R1".data,
        firstName := some "Ann".data, lastName := some "Smith".data,
        idNumber := some "9001011234088".data, dateOfBirth := some "1990-01-01".data,
        phone := some "0821234567".data, email := some "a@b.c".data,
        source := none, indemnityAcknowledged := true },
    aLogonXml := none, aArgument := none }

/-- The same request with a different identity payload, client key, agent
key and aArgument override. -/
def c10Body2 : MieRequestBody :=
  { method := some "KsoLogon".data, soapUrl := some "http://u".data,
    username := some "usr".data, password := some "pw".data,
    clientKey := none, agentKey := some "AG".data, source := some "web".data,
    payload := emptyMiePayload, aLogonXml := none,
    aArgument := some "<custom/>".data }

set_option maxRecDepth 16384

/- ### Helper lemmas: lists -/

/-- Decomposition of an infix of an append: wholly left, split across the
boundary (a nonempty suffix of the left part glued to a nonempty prefix of
the right part), or wholly right. -/
theorem infix_append_cases {P X Y : List Char} (h : P <:+: X ++ Y) :
    P <:+: X ∨
    (∃ p₁ p₂, p₁ ++ p₂ = P ∧ p₁ ≠ [] ∧ p₂ ≠ [] ∧ p₁ <:+ X ∧ p₂ <+: Y) ∨
    P <:+: Y := by
  obtain ⟨s, t, hst⟩ := h
  rw [List.append_assoc] at hst
  rcases List.append_eq_append_iff.mp hst with ⟨a, hX, hPt⟩ | ⟨c, hs, hY⟩
  · rcases List.append_eq_append_iff.mp hPt with ⟨b, ha, ht⟩ | ⟨d, hP, hY⟩
    · left
      exact ⟨s, b, by rw [hX, ha, List.append_assoc]⟩
    · rcases eq_or_ne a [] with rfl | hane
      · right; right
        simp only [List.nil_append] at hP
        exact ⟨[], t, by simp only [List.nil_append]; rw [hP]; exact hY.symm⟩
      · rcases eq_or_ne d [] with rfl | hdne
        · left
          refine ⟨s, [], ?_⟩
          rw [List.append_nil] at hP ⊢
          rw [hX, hP]
        · right; left
          exact ⟨a, d, hP.symm, hane, hdne, ⟨s, hX.symm⟩, ⟨t, hY.symm⟩⟩
  · right; right
    exact ⟨c, t, by rw [List.append_assoc]; exact hY.symm⟩

/-- Decomposition of a prefix of an append. -/
theorem prefix_append_cases {p X Y : List Char} (h : p <+: X ++ Y) :
    p <+: X ∨ (X <+: p ∧ p.drop X.length <+: Y) := by
  obtain ⟨t, ht⟩ := h
  rcases List.append_eq_append_iff.mp ht with ⟨a, hX, hta⟩ | ⟨c, hp, hY⟩
  · left; exact ⟨a, hX.symm⟩
  · right
    refine ⟨⟨c, hp.symm⟩, ?_⟩
    rw [hp, List.drop_left]
    exact ⟨t, hY.symm⟩

theorem getLast?_of_suffix {p X : List Char} (h : p <:+ X) (hne : p ≠ []) :
    p.getLast? = X.getLast? := by
  obtain ⟨s, hs⟩ := h
  rw [← hs, List.getLast?_append_of_ne_nil _ hne]

theorem head?_of_prefix_ne_nil {p X : List Char} (h : p <+: X) (hne : p ≠ []) :
    p.head? = X.head? := by
  obtain ⟨t, ht⟩ := h
  rcases p with _ | ⟨c, cs⟩
  · exact absurd rfl hne
  · rw [← ht]; rfl

theorem prefix_take_of_le {p P : List Char} (h : p <+: P) (n : Nat)
    (hn : p.length ≤ n) : p <+: P.take n := by
  have h1 : (P.take n).take p.length = p := by
    rw [List.take_take, Nat.min_eq_left hn]
    exact (List.prefix_iff_eq_take.mp h).symm
  refine ⟨(P.take n).drop p.length, ?_⟩
  nth_rewrite 1 [← h1]
  exact List.take_append_drop _ _

theorem dropWhile_head_not (p : Char → Bool) (z : List Char) :
    ∀ c, (z.dropWhile p).head? = some c → p c = false := by
  induction z with
  | nil => intro c hc; simp at hc
  | cons a t ih =>
    intro c hc
    rw [List.dropWhile_cons] at hc
    by_cases hp : p a
    · rw [if_pos hp] at hc
      exact ih c hc
    · rw [if_neg hp] at hc
      simp only [List.head?_cons, Option.some.injEq] at hc
      rw [← hc]
      exact Bool.eq_false_iff.mpr hp

theorem dropWhile_eq_self_of_head (p : Char → Bool) (z : List Char)
    (h : ∀ c, z.head? = some c → p c = false) : z.dropWhile p = z := by
  cases z with
  | nil => rfl
  | cons a t =>
    rw [List.dropWhile_cons]
    simp [h a rfl]

theorem jsTrim_idem (s : List Char) : jsTrim (jsTrim s) = jsTrim s := by
  unfold jsTrim
  have hyd : (((s.dropWhile jsSpace).reverse.dropWhile jsSpace).reverse).dropWhile
      jsSpace = ((s.dropWhile jsSpace).reverse.dropWhile jsSpace).reverse := by
    apply dropWhile_eq_self_of_head
    intro c hc
    rcases hB : (s.dropWhile jsSpace).reverse.dropWhile jsSpace with _ | ⟨b, bs⟩
    · rw [hB] at hc
      simp at hc
    · have hne : (s.dropWhile jsSpace).reverse.dropWhile jsSpace ≠ [] := by
        rw [hB]; simp
      have h1 : ((s.dropWhile jsSpace).reverse.dropWhile jsSpace).reverse.head? =
          ((s.dropWhile jsSpace).reverse.dropWhile jsSpace).getLast? :=
        List.head?_reverse _
      have h2 : ((s.dropWhile jsSpace).reverse.dropWhile jsSpace).getLast? =
          ((s.dropWhile jsSpace).reverse).getLast? :=
        getLast?_of_suffix (List.dropWhile_suffix _) hne
      have h3 : ((s.dropWhile jsSpace).reverse).getLast? = (s.dropWhile jsSpace).head? :=
        List.getLast?_reverse _
      exact dropWhile_head_not jsSpace s c (by rw [← h3, ← h2, ← h1]; exact hc)
  rw [hyd, List.reverse_reverse, List.dropWhile_idempotent]

/- ### Helper lemmas: cdataWrap round trip -/

theorem cdataReadSections_close (f : Nat) :
    cdataReadSections (f + 1) cdataClose = some [] := by
  simp [cdataReadSections, cdataClose]

theorem cdataReadSections_continue (f : Nat) (s : List Char) :
    cdataReadSections (f + 1) (cdataClose ++ cdataOpen ++ s) =
      cdataReadSections f s := by
  simp [cdataReadSections, cdataClose, cdataOpen]

theorem cdataReadSections_cons (f : Nat) (c : Char) (s : List Char)
    (h : ¬ c :: s.take 2 = cdataClose) :
    cdataReadSections (f + 1) (c :: s) =
      (cdataReadSections f s).map (fun t => c :: t) := by
  simp [cdataReadSections, List.take_succ_cons, h]

theorem escapeCdata_cons (c : Char) (rest : List Char)
    (h : ∀ r, c = ']' → rest = ']' :: '>' :: r → False) :
    escapeCdata (c :: rest) = c :: escapeCdata rest := by
  simp [escapeCdata]

theorem escapeCdata_head (t : List Char) :
    (escapeCdata t ++ cdataClose).take 1 = (t ++ cdataClose).take 1 := by
  induction t using escapeCdata.induct
  · simp [escapeCdata, cdataReplacement]
  · rename_i c rest hne ih
    rw [escapeCdata_cons c rest hne]
    simp
  · simp [escapeCdata]

theorem escapeCdata_take2 (t : List Char) :
    (escapeCdata t ++ cdataClose).take 2 = (t ++ cdataClose).take 2 := by
  induction t using escapeCdata.induct
  · simp [escapeCdata, cdataReplacement, cdataClose]
  · rename_i c rest hne ih
    rw [escapeCdata_cons c rest hne]
    simp only [List.cons_append, List.take_succ_cons]
    rw [escapeCdata_head rest]
  · simp [escapeCdata]

/-- Reading the escaped text followed by the final `]]>` recovers the
original value: the `]]>` occurrences introduced by the escaping close and
reopen sections exactly where the original text had `]]>`. -/
theorem escapeCdata_read (v : List Char) : ∀ f, (escapeCdata v).length + 3 ≤ f →
    cdataReadSections f (escapeCdata v ++ cdataClose) = some v := by
  induction v using escapeCdata.induct
  · rename_i rest ih
    intro f hf
    rw [escapeCdata] at hf ⊢
    obtain ⟨g, rfl⟩ : ∃ g, f = g + 4 := ⟨f - 4, by simp [cdataReplacement] at hf; omega⟩
    have hs : (cdataReplacement ++ escapeCdata rest) ++ cdataClose =
        ']' :: ']' :: (cdataClose ++ cdataOpen ++
          ('>' :: (escapeCdata rest ++ cdataClose))) := by
      simp [cdataReplacement, cdataClose, cdataOpen]
    rw [hs]
    rw [cdataReadSections_cons _ _ _ (by simp [cdataClose, cdataOpen, List.take_succ_cons])]
    rw [cdataReadSections_cons _ _ _ (by simp [cdataClose, cdataOpen, List.take_succ_cons])]
    rw [cdataReadSections_continue]
    rw [cdataReadSections_cons _ _ _ (by simp [cdataClose])]
    rw [ih g (by simp [cdataReplacement] at hf; omega)]
    rfl
  · rename_i c rest hne ih
    intro f hf
    rw [escapeCdata_cons c rest hne] at hf ⊢
    obtain ⟨g, rfl⟩ : ∃ g, f = g + 1 := ⟨f - 1, by omega⟩
    have hcond : ¬ (c :: (escapeCdata rest ++ cdataClose).take 2 = cdataClose) := by
      rw [escapeCdata_take2]
      rcases rest with _ | ⟨x, _ | ⟨y, t⟩⟩
      · simp [cdataClose]
      · simp [cdataClose]
      · intro hEq
        simp only [cdataClose, List.cons_append, List.take_succ_cons,
          List.take_zero] at hEq
        rw [List.cons.injEq] at hEq
        obtain ⟨hc, hEq⟩ := hEq
        rw [List.cons.injEq] at hEq
        obtain ⟨hx, hEq⟩ := hEq
        rw [List.cons.injEq] at hEq
        obtain ⟨hy, -⟩ := hEq
        exact hne t hc (by rw [hx, hy])
    rw [List.cons_append, cdataReadSections_cons _ _ _ hcond]
    rw [ih g (by simp at hf; omega)]
    rfl
  · intro f hf
    rw [escapeCdata] at hf ⊢
    obtain ⟨g, rfl⟩ : ∃ g, f = g + 1 := ⟨f - 1, by omega⟩
    simpa using cdataReadSections_close g

theorem cdataParse_cdataWrap (v : List Char) : cdataParse (cdataWrap v) = some v := by
  rw [cdataWrap, cdataParse]
  rw [List.append_assoc]
  rw [show (9 : Nat) = cdataOpen.length from rfl, List.take_left, List.drop_left]
  rw [if_pos rfl]
  apply escapeCdata_read
  simp [cdataOpen]
  omega

theorem cdataOpen_string : cdataOpen = "<![CDATA[".data := by decide

theorem cdataClose_string : cdataClose = "]]>".data := by decide

theorem cdataReplacement_string : cdataReplacement = "]]]]><![CDATA[>".data := by decide

/-- A concrete split: a value containing `]]>` wraps into two adjacent
CDATA sections. -/
theorem cdataWrap_split_example :
    cdataWrap "a]]>b".data = "<![CDATA[a]]]]><![CDATA[>b]]>".data ∧
    cdataParse "<![CDATA[a]]]]><![CDATA[>b]]>".data = some "a]]>b".data := by
  exact ⟨by decide, by decide⟩

/- ### C1 -/

/-- C1: `cdataWrap` replaces every literal `]]>` in the value by
`]]]]><![CDATA[>` and encloses the result in `<![CDATA[` ... `]]>`;
reading the produced CDATA-section sequence back (concatenating the
character data of the adjacent sections) yields exactly the original
value, so no embedded `]]>` prematurely closes a section; and wrapping an
already-escaped string and unwrapping yields that string back
(idempotence under re-wrapping). -/
theorem c1_cdata_wrap_roundtrip (v : List Char) :
    cdataWrap v = "<![CDATA[".data ++ escapeCdata v ++ "]]>".data ∧
    cdataParse (cdataWrap v) = some v ∧
    cdataParse (cdataWrap (escapeCdata v)) = some (escapeCdata v) := by
  refine ⟨?_, cdataParse_cdataWrap v, cdataParse_cdataWrap (escapeCdata v)⟩
  rw [cdataWrap, cdataOpen_string, cdataClose_string]

/- ### Helper lemmas: the aArgument element in the envelope -/

theorem soapEnvelope_noArg_assoc (m l a : List Char) (hA : hasArgument m = false) :
    soapEnvelope m l a =
      soapHeaderPre ++ (m ++ (soapAfterMethod ++ (cdataWrap l ++ (soapLogonClose ++
        (soapCloseSlash ++ (m ++ soapTail)))))) := by
  simp [soapEnvelope, hA, List.append_assoc]

theorem cdataWrap_getLast (l : List Char) : (cdataWrap l).getLast? = some '>' := by
  rw [cdataWrap, List.append_assoc,
    List.getLast?_append_of_ne_nil _ (by simp [cdataClose]),
    List.getLast?_append_of_ne_nil _ (by simp [cdataClose])]
  rfl

/-- An occurrence of `<aArgument>` cannot straddle the end of a segment
whose last character is outside the first ten characters of
`<aArgument>`. -/
theorem cross_left_dead {X p₁ p₂ : List Char} (hsplit : p₁ ++ p₂ = "<aArgument>".data)
    (h1 : p₁ ≠ []) (h2 : p₂ ≠ []) (hsuf : p₁ <:+ X)
    (hlast : ∀ c, X.getLast? = some c → c ∉ ("<aArgument>".data).take 10) : False := by
  have hp : p₁ <+: "<aArgument>".data := ⟨p₂, hsplit⟩
  have hlen : p₁.length ≤ 10 := by
    have hl := congrArg List.length hsplit
    rw [List.length_append] at hl
    have h2' : p₂.length ≠ 0 := fun hz => h2 (List.length_eq_zero.mp hz)
    have : ("<aArgument>".data).length = 11 := by decide
    omega
  have hp10 : p₁ <+: ("<aArgument>".data).take 10 := prefix_take_of_le hp 10 hlen
  rcases hx : p₁.getLast? with _ | c
  · exact h1 (List.getLast?_eq_none_iff.mp hx)
  · have hcX : X.getLast? = some c := by rw [← getLast?_of_suffix hsuf h1, hx]
    have hmem : c ∈ p₁ := List.mem_of_mem_getLast? (by simp [hx])
    exact hlast c hcX (hp10.subset hmem)

/-- An occurrence of `<aArgument>` cannot straddle the end of the method
name when the method name contains no `<`. -/
theorem cross_method_dead {m p₁ p₂ : List Char} (hsplit : p₁ ++ p₂ = "<aArgument>".data)
    (h1 : p₁ ≠ []) (hsuf : p₁ <:+ m) (hm : '<' ∉ m) : False := by
  have hp : p₁ <+: "<aArgument>".data := ⟨p₂, hsplit⟩
  have hh : p₁.head? = some '<' := by rw [head?_of_prefix_ne_nil hp h1]; rfl
  exact hm (hsuf.subset (List.mem_of_mem_head? (by simp [hh])))

theorem inside_method_dead {m : List Char} (h : "<aArgument>".data <:+: m)
    (hm : '<' ∉ m) : False :=
  hm (h.subset (by decide))

/-- An occurrence of `<aArgument>` cannot straddle the end of the envelope
header: its tail would have to begin inside the method name or inside the
fixed ` xmlns=...` segment, neither of which fits. -/
theorem cross_header_dead {m p₁ p₂ rest : List Char}
    (hsplit : p₁ ++ p₂ = "<aArgument>".data) (h1 : p₁ ≠ []) (h2 : p₂ ≠ [])
    (hpre : p₂ <+: m ++ (soapAfterMethod ++ rest)) (hm : '>' ∉ m) : False := by
  have hpsuf : p₂ <:+ "<aArgument>".data := ⟨p₁, hsplit⟩
  have hlast : p₂.getLast? = some '>' := by
    rw [getLast?_of_suffix hpsuf h2]; rfl
  have hgtmem : '>' ∈ p₂ := List.mem_of_mem_getLast? (by simp [hlast])
  have hlen : p₂.length ≤ 10 := by
    have hl := congrArg List.length hsplit
    rw [List.length_append] at hl
    have h1' : p₁.length ≠ 0 := fun hz => h1 (List.length_eq_zero.mp hz)
    have : ("<aArgument>".data).length = 11 := by decide
    omega
  rcases prefix_append_cases hpre with hpm | ⟨hmp, hdrop⟩
  · exact hm (hpm.subset hgtmem)
  · rcases eq_or_ne (p₂.drop m.length) [] with hz | hnz
    · have hlm : p₂.length ≤ m.length := by
        have := congrArg List.length hz
        simp [List.length_drop] at this
        omega
      have : m = p₂ := List.IsPrefix.eq_of_length hmp (Nat.le_antisymm hmp.length_le hlm)
      exact hm (this ▸ hgtmem)
    · rcases prefix_append_cases hdrop with hpB | ⟨hBp, -⟩
      · have hh : (p₂.drop m.length).head? = some ' ' := by
          rw [head?_of_prefix_ne_nil hpB hnz]; rfl
        have hsufP : p₂.drop m.length <:+ "<aArgument>".data :=
          (List.drop_suffix _ _).trans hpsuf
        have : ' ' ∈ "<aArgument>".data :=
          hsufP.subset (List.mem_of_mem_head? (by simp [hh]))
        revert this; decide
      · have h44 : soapAfterMethod.length = 44 := by decide
        have := hBp.length_le
        have hdl : (p₂.drop m.length).length ≤ p₂.length := by
          rw [List.length_drop]; omega
        omega

/-- For a method outside the allow-list the built envelope nowhere
contains the text `<aArgument>`. -/
theorem argTag_not_in_noArg_envelope {m l a : List Char} (h1 : '<' ∉ m) (h2 : '>' ∉ m)
    (h3 : ¬ ("<aArgument>".data <:+: cdataWrap l)) (hA : hasArgument m = false) :
    ¬ ("<aArgument>".data <:+: soapEnvelope m l a) := by
  intro hinf
  rw [soapEnvelope_noArg_assoc m l a hA] at hinf
  rcases infix_append_cases hinf with hin | ⟨p₁, p₂, hsp, hn1, hn2, hsuf, hpre⟩ | hinf
  · exact absurd hin (by decide)
  · exact cross_header_dead hsp hn1 hn2 hpre h2
  rcases infix_append_cases hinf with hin | ⟨p₁, p₂, hsp, hn1, hn2, hsuf, hpre⟩ | hinf
  · exact inside_method_dead hin h1
  · exact cross_method_dead hsp hn1 hsuf h1
  rcases infix_append_cases hinf with hin | ⟨p₁, p₂, hsp, hn1, hn2, hsuf, hpre⟩ | hinf
  · exact absurd hin (by decide)
  · exact cross_left_dead hsp hn1 hn2 hsuf (by decide)
  rcases infix_append_cases hinf with hin | ⟨p₁, p₂, hsp, hn1, hn2, hsuf, hpre⟩ | hinf
  · exact h3 hin
  · refine cross_left_dead hsp hn1 hn2 hsuf ?_
    intro c hc
    rw [cdataWrap_getLast] at hc
    cases hc
    decide
  rcases infix_append_cases hinf with hin | ⟨p₁, p₂, hsp, hn1, hn2, hsuf, hpre⟩ | hinf
  · exact absurd hin (by decide)
  · exact cross_left_dead hsp hn1 hn2 hsuf (by decide)
  rcases infix_append_cases hinf with hin | ⟨p₁, p₂, hsp, hn1, hn2, hsuf, hpre⟩ | hinf
  · exact absurd hin (by decide)
  · exact cross_left_dead hsp hn1 hn2 hsuf (by decide)
  rcases infix_append_cases hinf with hin | ⟨p₁, p₂, hsp, hn1, hn2, hsuf, hpre⟩ | hinf
  · exact inside_method_dead hin h1
  · exact cross_method_dead hsp hn1 hsuf h1
  · exact absurd hinf (by decide)

/-- For an allow-listed method the built envelope contains the
`<aArgument>` element. -/
theorem argTag_in_envelope (m l a : List Char) (hA : hasArgument m = true) :
    "<aArgument>".data <:+: soapEnvelope m l a := by
  refine ⟨soapHeaderPre ++ m ++ soapAfterMethod ++ cdataWrap l ++ soapLogonClose,
    cdataWrap a ++ "</aArgument>".data ++ soapCloseSlash ++ m ++ soapTail, ?_⟩
  simp [soapEnvelope, hA, List.append_assoc]

/- ### C2 -/

/-- C2: the built SOAP envelope contains the `aArgument` request-fragment
element if and only if the lower-cased method name is one of the three
allow-listed names (`hasArgument`); for every other method only the
logon fragment appears.  Containment is literal-substring occurrence of
`<aArgument>`; the hypotheses pin the inputs down to those of a real
request reaching envelope construction: a method name that is a plain XML
element name (no angle brackets) and a logon fragment whose CDATA section
does not itself spell `<aArgument>`. -/
theorem c2_argument_allowlist (m l a : List Char) (h1 : '<' ∉ m) (h2 : '>' ∉ m)
    (h3 : ¬ ("<aArgument>".data <:+: cdataWrap l)) :
    ("<aArgument>".data <:+: soapEnvelope m l a) ↔ hasArgument m = true := by
  constructor
  · intro hinf
    cases hB : hasArgument m with
    | false => exact absurd hinf (argTag_not_in_noArg_envelope h1 h2 h3 hB)
    | true => rfl
  · intro hB
    exact argTag_in_envelope m l a hB

/-- Witness for C2 at an allow-listed method and a concrete logon
fragment. -/
theorem c2_argument_allowlist_witness :
    ('<' ∉ "KsoPutBranch".data) ∧ ('>' ∉ "KsoPutBranch".data) ∧
    (¬ ("<aArgument>".data <:+: cdataWrap "<xml>logon</xml>".data)) ∧
    (("<aArgument>".data <:+:
        soapEnvelope "KsoPutBranch".data "<xml>logon</xml>".data "x".data) ↔
      hasArgument "KsoPutBranch".data = true) :=
  ⟨by decide, by decide, by decide,
    c2_argument_allowlist _ _ _ (by decide) (by decide) (by decide)⟩

/- ### C3 -/

/-- C3: phone normalization first strips all non-digit characters, then:
digits starting with `27` are returned unchanged; else a single leading
`0` is replaced by `27`; else exactly nine remaining digits get `27`
prepended; otherwise the stripped digits are returned as-is.  Absent input
and input with no digits normalize to the empty string. -/
theorem c3_phone_normalization (phone : Option (List Char)) :
    formatSmsPortalNumber phone =
      (let d := match phone with
        | none => []
        | some s => s.filter fun c => c.isDigit
       if d = [] then []
       else if ['2', '7'] <+: d then d
       else if ['0'] <+: d then ['2', '7'] ++ d.tail
       else if d.length = 9 then ['2', '7'] ++ d
       else d) := by
  match phone with
  | none => rfl
  | some s =>
    show (let cleaned := s.filter fun c => c.isDigit
      if cleaned = [] then []
      else if ['2', '7'].isPrefixOf cleaned then cleaned
      else if ['0'].isPrefixOf cleaned then ['2', '7'] ++ cleaned.drop 1
      else if cleaned.length = 9 then ['2', '7'] ++ cleaned
      else cleaned) = _
    simp only [List.isPrefixOf_iff_prefix, List.drop_one]

/-- Concrete checks of the normalizer's four branches and the empty
cases. -/
theorem formatSmsPortalNumber_examples :
    formatSmsPortalNumber (some "+27 82 123 4567".data) = "27821234567".data ∧
    formatSmsPortalNumber (some "0821234567".data) = "27821234567".data ∧
    formatSmsPortalNumber (some "821234567".data) = "27821234567".data ∧
    formatSmsPortalNumber (some "abc".data) = [] ∧
    formatSmsPortalNumber (some "12345".data) = "12345".data ∧
    formatSmsPortalNumber none = [] := by
  refine ⟨?_, ?_, ?_, ?_, ?_, rfl⟩ <;> decide

/- ### C5 -/

/-- C5: two-stage best-effort extraction.  Stage one returns the inner
text of the first case-insensitive `<tag ...>...</tag>` match (or absence);
stage two tries the element, attribute and colon patterns in that order
and returns the first match's trimmed value (or absence).  Checked on the
spec's examples, on an input where pattern order matters, on first-match
and case-insensitive tag extraction, on absence, and on trimming. -/
theorem c5_extraction :
    extractTagText "<a><FooResult>junk<RequestKey>ABC123</RequestKey>tail</FooResult></a>".data
        "FooResult".data = some "junk<RequestKey>ABC123</RequestKey>tail".data ∧
    (extractTagText "<a><FooResult>junk<RequestKey>ABC123</RequestKey>tail</FooResult></a>".data
        "FooResult".data).bind extractRequestKey = some "ABC123".data ∧
    extractRequestKey "RequestKey=\"XYZ\"".data = some "XYZ".data ∧
    extractRequestKey "RequestKey=\"AT\" and <RequestKey>EL</RequestKey>".data =
      some "EL".data ∧
    extractTagText "<FooResult>one</FooResult><FooResult>two</FooResult>".data
        "FooResult".data = some "one".data ∧
    extractTagText "<fooresult attr=\"1\">x</FOORESULT>".data "FooResult".data =
      some "x".data ∧
    extractTagText "no tags here".data "FooResult".data = none ∧
    extractRequestKey "nothing to see".data = none ∧
    extractRequestKey "<RequestKey>  K1  </RequestKey>".data = some "K1".data ∧
    extractRequestKey "RequestKey : ABC-12_3,rest".data = some "ABC-12_3".data := by
  refine ⟨?_, ?_, ?_, ?_, ?_, ?_, ?_, ?_, ?_, ?_⟩ <;> decide

/- ### C4 -/

/-- C4 counterexample: a request that supplies no username, in an
environment that sets `MIE_USERNAME = "alice"`, still reaches the vendor
with an empty `<UserName>` element — the environment-provided username
appears nowhere in the built envelope, refuting the claim that the
username is resolved like the password. -/
theorem c4_counterexample_username_env :
    mieBuild c4Body c4Env none "0".data "T".data =
      .send "http://vendor".data (soapActionFor "KsoLogon".data)
        (soapEnvelope "KsoLogon".data (mieLogonXml c4Body "pw".data)
          (mieArgumentXml c4Body "0".data "T".data)) ∧
    mieLogonXml c4Body "pw".data =
      ("<xml><Token><UserName></UserName><Password>pw</Password>"
        ++ "<Source></Source></Token></xml>").data ∧
    ¬ ("alice".data <:+:
        soapEnvelope "KsoLogon".data (mieLogonXml c4Body "pw".data)
          (mieArgumentXml c4Body "0".data "T".data)) := by
  refine ⟨?_, ?_, ?_⟩ <;> decide

/-- C4 (amended): the password is resolved as the first truthy of the
request value, the `MIE_PASSWORD` environment variable, and the secrets
file under the upper-case and then the lower-case key; the username,
however, is taken solely from the request body — the `MIE_USERNAME`
environment variable is never consulted, so the handler's outcome is
independent of it. -/
theorem c4_amended_password_precedence (body : MieRequestBody) (env : MieEnv)
    (secrets : Option MieSecrets) (nowMs nowIso : List Char) :
    resolveMiePassword body env secrets =
      specFirstTruthy [body.password, env.MIE_PASSWORD,
        secrets.bind (fun s => s.MIE_PASSWORD),
        secrets.bind (fun s => s.mie_password)] ∧
    (∀ u, mieBuild body { env with MIE_USERNAME := u } secrets nowMs nowIso =
      mieBuild body env secrets nowMs nowIso) := by
  constructor
  · by_cases h1 : jsTruthy body.password <;>
    by_cases h2 : jsTruthy env.MIE_PASSWORD <;>
    by_cases h3 : jsTruthy (secrets.bind fun s => s.MIE_PASSWORD) <;>
    by_cases h4 : jsTruthy (secrets.bind fun s => s.mie_password) <;>
    simp [resolveMiePassword, specFirstTruthy, orFalsy, List.find?, h1, h2, h3, h4]
  · intro u
    rfl

/- ### C6 -/

/-- C6: on a non-2xx vendor status the handler responds 502 with
`ok:false`, the status code inside the error message, the soapAction, the
soapUrl, and a response snippet equal to the first at most 2000 characters
of the raw vendor body — never longer than 2000, and a strict truncation
whenever the body is longer. -/
theorem c6_vendor_error (m sa su : List Char) (st : Nat) (rt : List Char)
    (h : ¬ (200 ≤ st ∧ st ≤ 299)) :
    mieRespond m sa su st rt =
      (502, .failure st ("MIE SOAP HTTP ".data ++ (Nat.repr st).data) sa su
        (rt.take 2000)) ∧
    (rt.take 2000).length ≤ 2000 ∧
    (2000 < rt.length → rt.take 2000 ≠ rt) := by
  refine ⟨by simp [mieRespond, h], by simp [List.length_take], ?_⟩
  intro hlen heq
  have hl := congrArg List.length heq
  rw [List.length_take] at hl
  omega

/-- Witness for C6 at a vendor 500. -/
theorem c6_vendor_error_witness :
    mieRespond "KsoPutRequest".data "act".data "url".data 500 "Server Error".data =
      (502, .failure 500 ("MIE SOAP HTTP ".data ++ (Nat.repr 500).data) "act".data
        "url".data (("Server Error".data).take 2000)) ∧
    ((("Server Error".data).take 2000)).length ≤ 2000 ∧
    (2000 < ("Server Error".data).length →
      ("Server Error".data).take 2000 ≠ "Server Error".data) :=
  c6_vendor_error _ _ _ 500 _ (by omega)

/- ### C7 -/

/-- C7: `/api/mie` fails before any outbound call when required input is
missing: a falsy method gives 400 with an error mentioning "method"; a
method but falsy soapUrl gives 400 mentioning "soapUrl"; and when no
password is resolvable from body, environment or secrets file, 400 with
`ok:false` and a hint naming the environment variable and the secrets
file. -/
theorem c7_missing_input (body : MieRequestBody) (env : MieEnv)
    (secrets : Option MieSecrets) (nowMs nowIso : List Char) :
    (jsTruthy body.method = false →
      mieBuild body env secrets nowMs nowIso =
        .early 400 false "Missing method".data none ∧
      "method".data <:+: "Missing method".data) ∧
    (jsTruthy body.method = true → jsTruthy body.soapUrl = false →
      mieBuild body env secrets nowMs nowIso =
        .early 400 false "Missing soapUrl".data none ∧
      "soapUrl".data <:+: "Missing soapUrl".data) ∧
    (jsTruthy body.method = true → jsTruthy body.soapUrl = true →
      resolveMiePassword body env secrets = none →
      mieBuild body env secrets nowMs nowIso =
        .early 400 false "Missing MIE password".data (some mieMissingPasswordHint) ∧
      "MIE_PASSWORD as an environment variable".data <:+: mieMissingPasswordHint ∧
      "secrets.local.json".data <:+: mieMissingPasswordHint) := by
  refine ⟨?_, ?_, ?_⟩
  · intro hm
    exact ⟨by simp [mieBuild, hm], by decide⟩
  · intro hm hu
    exact ⟨by simp [mieBuild, hm, hu], by decide⟩
  · intro hm hu hp
    exact ⟨by simp [mieBuild, hm, hu, hp], by decide, by decide⟩

/-- Witness for C7 at three concrete deficient requests. -/
theorem c7_missing_input_witness :
    (mieBuild c7BodyNoMethod mieEnvNone none "0".data "T".data =
        .early 400 false "Missing method".data none ∧
      "method".data <:+: "Missing method".data) ∧
    (mieBuild c7BodyNoUrl mieEnvNone none "0".data "T".data =
        .early 400 false "Missing soapUrl".data none ∧
      "soapUrl".data <:+: "Missing soapUrl".data) ∧
    (mieBuild c7BodyNoPassword mieEnvNone none "0".data "T".data =
        .early 400 false "Missing MIE password".data (some mieMissingPasswordHint) ∧
      "MIE_PASSWORD as an environment variable".data <:+: mieMissingPasswordHint ∧
      "secrets.local.json".data <:+: mieMissingPasswordHint) :=
  ⟨(c7_missing_input c7BodyNoMethod mieEnvNone none "0".data "T".data).1 rfl,
    (c7_missing_input c7BodyNoUrl mieEnvNone none "0".data "T".data).2.1 rfl rfl,
    (c7_missing_input c7BodyNoPassword mieEnvNone none "0".data "T".data).2.2
      rfl rfl rfl⟩

/- ### C9 -/

theorem extractRequestKey_trimmed (t v : List Char)
    (h : extractRequestKey t = some v) : jsTrim v = v := by
  rw [extractRequestKey] at h
  split at h
  · cases h
  · rcases h1 : scanFirst reqKeyElemAt t with _ | u <;> rw [h1] at h
    · rcases h2 : scanFirst reqKeyAttrAt t with _ | u <;> rw [h2] at h
      · rcases h3 : scanFirst reqKeyColonAt t with _ | u <;> rw [h3] at h
        · cases h
        · simp only [Option.some.injEq] at h
          rw [← h]
          exact jsTrim_idem u
      · simp only [Option.some.injEq] at h
        rw [← h]
        exact jsTrim_idem u
    · simp only [Option.some.injEq] at h
      rw [← h]
      exact jsTrim_idem u

/-- C9: in every 200 response of `/api/mie` the `reference` field equals
the `requestKey` field: both carry the same value `rk`, which is either
absent (`null`) — when extraction fails or yields the empty string — or a
non-empty trim-fixed key. -/
theorem c9_reference_eq_requestKey (m sa su : List Char) (st : Nat) (rt : List Char)
    (h : 200 ≤ st ∧ st ≤ 299) :
    ∃ rk res, mieRespond m sa su st rt = (200, .success m sa rk rk res rt) ∧
      (rk = none ∨ ∃ v, rk = some v ∧ v ≠ [] ∧ jsTrim v = v) := by
  rcases ht : extractTagText rt (m ++ "Result".data) with _ | t
  · refine ⟨none, none, ?_, Or.inl rfl⟩
    simp [mieRespond, h, ht, orNull, jsTruthy]
  · rcases hk : extractRequestKey t with _ | v
    · refine ⟨none, orNull (some t), ?_, Or.inl rfl⟩
      simp [mieRespond, h, ht, hk, orNull, jsTruthy]
    · refine ⟨orNull (some v), orNull (some t), ?_, ?_⟩
      · simp [mieRespond, h, ht, hk]
      · rcases v with _ | ⟨c, cs⟩
        · exact Or.inl (by simp [orNull, jsTruthy])
        · exact Or.inr ⟨c :: cs, by simp [orNull, jsTruthy], by simp,
            extractRequestKey_trimmed t _ hk⟩

/-- Witness for C9 at a concrete 200 vendor response. -/
theorem c9_reference_eq_requestKey_witness :
    ∃ rk res, mieRespond "Foo".data "act".data "url".data 200
        "<FooResult><RequestKey>K9</RequestKey></FooResult>".data =
      (200, .success "Foo".data "act".data rk rk res
        "<FooResult><RequestKey>K9</RequestKey></FooResult>".data) ∧
      (rk = none ∨ ∃ v, rk = some v ∧ v ≠ [] ∧ jsTrim v = v) :=
  c9_reference_eq_requestKey _ _ _ 200 _ (by omega)

/- ### C8 -/

theorem smsSend_map_dest (s : List Char) (options : SmsOptions)
    (rs : List SmsRecipient) :
    ((rs.map (smsMessageOf s options)).filter
        (fun mg => !mg.destination.isEmpty)).map (fun mg => mg.destination) =
      (rs.map fun r => formatSmsPortalNumber (recipientRaw r)).filter
        fun d => !d.isEmpty := by
  induction rs with
  | nil => rfl
  | cons r t ih =>
    simp only [List.map_cons, List.filter_cons]
    by_cases hd : (formatSmsPortalNumber (recipientRaw r)).isEmpty
    · simp [smsMessageOf, hd, ih]
    · simp [smsMessageOf, hd, ih]

theorem smsSend_some_cons (s : List Char) (options : SmsOptions) (r : SmsRecipient)
    (t : List SmsRecipient) (hnz : (jsTrim s).isEmpty = false) :
    smsSend (some s) (some (r :: t)) options =
      (if (((r :: t).map (smsMessageOf s options)).filter
            fun mg => !mg.destination.isEmpty).isEmpty then
        .badRequest 400 false "No valid recipient numbers found".data
      else
        .forward "/BulkMessages".data
          ⟨((r :: t).map (smsMessageOf s options)).filter
              fun mg => !mg.destination.isEmpty,
            options.testMode,
            if jsTruthy options.senderId then options.senderId else none⟩) := by
  simp [smsSend, hnz]

/-- C8: `/api/sms/send` returns 400 when the message is absent or trims to
empty, or when recipients are missing, not an array, or empty; recipients
whose phone normalizes to the empty string are dropped from the outbound
batch, and when none survives the handler returns 400 without forwarding;
every forwarded message carries the trimmed message text and a non-empty
normalized destination; and the recipient `"0821234567"` with message
`"hi"` forwards one message with destination `"27821234567"`. -/
theorem c8_sms_send (s : List Char) (recipients : Option (List SmsRecipient))
    (rs : List SmsRecipient) (options : SmsOptions) :
    (smsSend none recipients options =
      .badRequest 400 false "Message cannot be empty".data) ∧
    (jsTrim s = [] → smsSend (some s) recipients options =
      .badRequest 400 false "Message cannot be empty".data) ∧
    (jsTrim s ≠ [] →
      smsSend (some s) none options =
        .badRequest 400 false "No recipients specified".data ∧
      smsSend (some s) (some []) options =
        .badRequest 400 false "No recipients specified".data) ∧
    (jsTrim s ≠ [] → rs ≠ [] →
      (((rs.map fun r => formatSmsPortalNumber (recipientRaw r)).filter
          fun d => !d.isEmpty) = [] →
        smsSend (some s) (some rs) options =
          .badRequest 400 false "No valid recipient numbers found".data) ∧
      (∀ path pl, smsSend (some s) (some rs) options = .forward path pl →
        path = "/BulkMessages".data ∧
        pl.messages.map (fun mg => mg.destination) =
          ((rs.map fun r => formatSmsPortalNumber (recipientRaw r)).filter
            fun d => !d.isEmpty) ∧
        ∀ mg ∈ pl.messages, mg.content = jsTrim s ∧ mg.destination ≠ [])) ∧
    smsSend (some "hi".data)
        (some [SmsRecipient.objRec none (some "0821234567".data) none none])
        { scheduledFor := none, reference := none, senderId := none, testMode := false } =
      .forward "/BulkMessages".data
        ⟨[⟨"hi".data, "27821234567".data, none, none⟩], false, none⟩ := by
  refine ⟨rfl, ?_, ?_, ?_, by decide⟩
  · intro hs
    simp [smsSend, hs]
  · intro hs
    have : (jsTrim s).isEmpty = false := by
      cases hx : jsTrim s
      · exact absurd hx hs
      · rfl
    exact ⟨by simp [smsSend, this], by simp [smsSend, this]⟩
  · intro hs hrs
    have hnz : (jsTrim s).isEmpty = false := by
      cases hx : jsTrim s
      · exact absurd hx hs
      · rfl
    constructor
    · intro hall
      cases rs with
      | nil => exact absurd rfl hrs
      | cons r t =>
        have hmz : (((r :: t).map (smsMessageOf s options)).filter
            fun mg => !mg.destination.isEmpty) = [] := by
          have hmap := smsSend_map_dest s options (r :: t)
          rw [hall] at hmap
          exact List.map_eq_nil_iff.mp hmap
        rw [smsSend_some_cons s options r t hnz, hmz]
        rfl
    · intro path pl hfw
      cases rs with
      | nil => exact absurd rfl hrs
      | cons r t =>
        rw [smsSend_some_cons s options r t hnz] at hfw
        rcases hm : ((r :: t).map (smsMessageOf s options)).filter
            (fun mg => !mg.destination.isEmpty) with _ | ⟨m0, mrest⟩ <;>
          rw [hm] at hfw
        · simp at hfw
        · simp only [List.isEmpty_cons, Bool.false_eq_true, if_false,
            SmsSendStep.forward.injEq] at hfw
          obtain ⟨hpath, hpl⟩ := hfw
          refine ⟨hpath.symm, ?_, ?_⟩
          · rw [← hpl]
            rw [← hm]
            exact smsSend_map_dest s options (r :: t)
          · intro mg hmg
            rw [← hpl] at hmg
            simp only at hmg
            rw [← hm] at hmg
            obtain ⟨hmem, hpred⟩ := List.mem_filter.mp hmg
            obtain ⟨r0, hr0, hmr⟩ := List.mem_map.mp hmem
            constructor
            · rw [← hmr]
              rfl
            · intro hz
              rw [hz] at hpred
              simp at hpred

/-- Witness for C8 at three concrete deficient requests. -/
theorem c8_sms_send_witness :
    (smsSend (some "  ".data) (some [])
        { scheduledFor := none, reference := none, senderId := none, testMode := false } =
      .badRequest 400 false "Message cannot be empty".data) ∧
    (smsSend (some "hi".data) none
        { scheduledFor := none, reference := none, senderId := none, testMode := false } =
      .badRequest 400 false "No recipients specified".data) ∧
    (smsSend (some "hi".data) (some [SmsRecipient.strRec "abc".data])
        { scheduledFor := none, reference := none, senderId := none, testMode := false } =
      .badRequest 400 false "No valid recipient numbers found".data) :=
  ⟨(c8_sms_send "  ".data (some [])
      [] { scheduledFor := none, reference := none, senderId := none, testMode := false }).2.1
      (by decide),
    ((c8_sms_send "hi".data none
      [] { scheduledFor := none, reference := none, senderId := none, testMode := false }).2.2.1
      (by decide)).1,
    ((c8_sms_send "hi".data (some [SmsRecipient.strRec "abc".data])
      [SmsRecipient.strRec "abc".data]
      { scheduledFor := none, reference := none, senderId := none, testMode := false }).2.2.2.1
      (by decide) (by decide)).1 (by decide)⟩

/- ### C10 -/

/-- C10: for a method outside the allow-list the outbound envelope is
independent of the identity payload — two requests that agree on method,
soapUrl, username, password, source and aLogonXml but differ arbitrarily
in payload, clientKey, agentKey and aArgument produce the same handler
outcome (and in particular identical envelopes). -/
theorem c10_payload_noninterference (b1 b2 : MieRequestBody) (env : MieEnv)
    (secrets : Option MieSecrets) (nowMs nowIso : List Char)
    (hm : b1.method = b2.method) (hu : b1.soapUrl = b2.soapUrl)
    (hn : b1.username = b2.username) (hp : b1.password = b2.password)
    (hs : b1.source = b2.source) (hl : b1.aLogonXml = b2.aLogonXml)
    (hArg : hasArgument (nullishGetD b1.method []) = false) :
    mieBuild b1 env secrets nowMs nowIso = mieBuild b2 env secrets nowMs nowIso := by
  have hpw : resolveMiePassword b1 env secrets = resolveMiePassword b2 env secrets := by
    simp [resolveMiePassword, hp]
  have hlog : ∀ pw, mieLogonXml b1 pw = mieLogonXml b2 pw := by
    intro pw
    simp [mieLogonXml, hl, hn, hs]
  have henv : ∀ l a1 a2, soapEnvelope (nullishGetD b2.method []) l a1 =
      soapEnvelope (nullishGetD b2.method []) l a2 := by
    intro l a1 a2
    rw [hm] at hArg
    simp [soapEnvelope, hArg]
  rw [mieBuild, mieBuild, hm, hu, hpw]
  cases hres : resolveMiePassword b2 env secrets with
  | none => rfl
  | some pw =>
    simp only [hm, hu, hlog pw]
    rw [henv (mieLogonXml b2 pw) (mieArgumentXml b1 nowMs nowIso)
      (mieArgumentXml b2 nowMs nowIso)]

/-- Witness for C10: two concrete requests differing in the whole identity
payload, client key, agent key and aArgument override. -/
theorem c10_payload_noninterference_witness :
    mieBuild c10Body1 mieEnvNone none "7".data "T".data =
      mieBuild c10Body2 mieEnvNone none "7".data "T".data :=
  c10_payload_noninterference c10Body1 c10Body2 mieEnvNone none "7".data "T".data
    rfl rfl rfl rfl rfl rfl (by decide)
